import Mathlib

/-!
Shallow embedding of the AIStore core: the primary-proxy two-phase bucket
transactions (metadata.go / part_000), the bucket-props recomputation
(makeNprops), the EC restore / encode data plane (part_004), and the
on-demand xaction idle machinery (xaction/demand/demand.go).

Go machine integers are modelled as Int (with explicit bounds where
overflow matters), Go maps iterated in a fixed order are modelled as
association lists in iteration order, fallible calls return Option or
Except, and broadcast RPC results are modelled as the list of per-target
outcomes in channel-delivery order.
-/

namespace AIStore

/-- Errors surfaced by the proxy control plane.  Target-side RPC errors are
abstracted as `fromTarget n` so distinct targets' errors are distinguishable. -/
inductive Err where
  | bucketAlreadyExists (b : String)
  | bucketDoesNotExist (b : String)
  | bucketIsBusy (b : String)
  | invalidNCopies
  | invalidECConf
  | ecAlreadyEnabled (b : String)
  | ecImmutable
  | cannotStartRebalance
  | validation (n : Nat)
  | fromTarget (n : Nat)
deriving DecidableEq, Repr

/-- Mirror section of BucketProps: `cmn.MirrorConf` (enabled, copies).
Modelled from the spec: BucketProps carries mirror (enabled, copies). -/
structure MirrorConf where
  enabled : Bool
  copies : Int
deriving DecidableEq, Repr

/-- EC section of BucketProps: `cmn.ECConf`.
Modelled from the spec: EC (enabled, data-slices, parity-slices, slice-size);
`reflect.DeepEqual` on this struct is structural equality on all fields. -/
structure ECConf where
  enabled : Bool
  dataSlices : Int
  paritySlices : Int
  sliceSize : Int
deriving DecidableEq, Repr

/-- `cmn.BucketProps`. Modelled from the spec: checksum policy, mirror,
EC, versioning, access-attrs bitmask, renamed-marker. -/
structure BucketProps where
  cksumType : String
  mirror : MirrorConf
  ec : ECConf
  versioningEnabled : Bool
  accessAttrs : Nat
  renamed : String
deriving DecidableEq, Repr

/-- `cmn.DefaultBucketProps()`: everything off. Modelled from the spec. -/
def defaultBucketProps : BucketProps :=
  { cksumType := "xxhash"
    mirror := { enabled := false, copies := 0 }
    ec := { enabled := false, dataSlices := 0, paritySlices := 0, sliceSize := 0 }
    versioningEnabled := false
    accessAttrs := 0
    renamed := "" }

/-- The BMD: versioned registry of buckets (provider dimension elided; all
claims are about a single provider). `put` of a mutated clone bumps the
version, matching the monotone clone-and-publish discipline. -/
structure BMD where
  version : Nat
  buckets : List (String × BucketProps)
deriving DecidableEq, Repr

namespace BMD

/-- `bmd.Get(bck)`. -/
def get (bmd : BMD) (b : String) : Option BucketProps :=
  (bmd.buckets.find? (fun kv => kv.1 == b)).map (fun kv => kv.2)

/-- `clone.add(bck, props)` followed by `put` (version bump).  The callers
assert non-presence before calling. -/
def add (bmd : BMD) (b : String) (p : BucketProps) : BMD :=
  { version := bmd.version + 1, buckets := bmd.buckets ++ [(b, p)] }

/-- `clone.set(bck, nprops)` followed by `put`. -/
def set (bmd : BMD) (b : String) (p : BucketProps) : BMD :=
  { version := bmd.version + 1
    buckets := bmd.buckets.map (fun kv => if kv.1 == b then (b, p) else kv) }

/-- `clone.del(bck)` followed by `put`. -/
def del (bmd : BMD) (b : String) : BMD :=
  { version := bmd.version + 1
    buckets := bmd.buckets.filter (fun kv => kv.1 != b) }

end BMD

/-- `for res := range results { if res.err != nil { ... } }`: the first
non-nil error in delivery order, if any. -/
def firstErr (results : List (Option Err)) : Option Err :=
  results.findSome? id

/-- Observable control-plane actions of one proxy transaction, in program
order: broadcasts, metasync publications, notification-listener
registration, name-lock releases, and compensating rollbacks. -/
inductive Event where
  | beginBcast
  | abortBcast
  | metasync
  | metasyncRMD
  | commitBcast
  | notifAdd
  | unlock (b : String)
  | runlock (b : String)
  | rollbackCreate
  | rollbackCopies
deriving DecidableEq, Repr

/-- Result of running one proxy transaction sequentially: the returned
error (if any), the proxy's BMD afterwards, the emitted events in order,
and whether the run is parked on a blocking `nlp.Lock()` held by another
operation (the sequential model stops at that blocking point). -/
structure TxnRes where
  err : Option Err
  bmd : BMD
  events : List Event
  lockWait : Bool
deriving DecidableEq, Repr

/-- `undoCreateBucket`: clone, delete the bucket (no-op if already gone),
publish, metasync.  Returns the proxy BMD after the rollback. -/
def undoCreateBucket (bmd : BMD) (b : String) : BMD :=
  if (bmd.get b).isSome then bmd.del b else bmd

/-- `undoUpdateCopies`: clone, restore the saved mirror section
(no-op if the bucket is gone), publish, metasync. -/
def undoUpdateCopies (bmd : BMD) (b : String) (copies : Int) (enabled : Bool) : BMD :=
  match bmd.get b with
  | none => bmd
  | some props => bmd.set b { props with mirror := { enabled := enabled, copies := copies } }

/-- `proxyrunner.createBucket`: blocking `nlp.Lock()`; fail if the bucket
exists; begin broadcast with abort-on-error; add to the BMD clone and
metasync; commit broadcast with `undoCreateBucket` rollback on error.
`held` is whether another operation currently holds the bucket name-lock;
`beginRes`/`commitRes` are the per-target broadcast outcomes. -/
def createBucket (held : Bool) (bmd : BMD) (b : String) (props : BucketProps)
    (beginRes commitRes : List (Option Err)) : TxnRes :=
  if held then
    -- nlp.Lock() blocks until the holder releases; stop at the blocking point
    { err := none, bmd := bmd, events := [], lockWait := true }
  else if (bmd.get b).isSome then
    { err := some (.bucketAlreadyExists b), bmd := bmd, events := [.unlock b], lockWait := false }
  else
    match firstErr beginRes with
    | some e =>
      { err := some e, bmd := bmd
        events := [.beginBcast, .abortBcast, .unlock b], lockWait := false }
    | none =>
      let bmd1 := bmd.add b props
      match firstErr commitRes with
      | some e =>
        { err := some e, bmd := undoCreateBucket bmd1 b
          events := [.beginBcast, .metasync, .commitBcast, .rollbackCreate, .unlock b]
          lockWait := false }
      | none =>
        { err := none, bmd := bmd1
          events := [.beginBcast, .metasync, .commitBcast, .unlock b], lockWait := false }

/-- `proxyrunner.destroyBucket`: blocking `nlp.Lock()` (the source carries a
TODO to switch to try-lock); fail if absent; delete from the clone and
metasync; no begin/commit with targets. -/
def destroyBucket (held : Bool) (bmd : BMD) (b : String) : TxnRes :=
  if held then
    { err := none, bmd := bmd, events := [], lockWait := true }
  else
    match bmd.get b with
    | none =>
      { err := some (.bucketDoesNotExist b), bmd := bmd, events := [.unlock b], lockWait := false }
    | some _ =>
      { err := none, bmd := bmd.del b, events := [.metasync, .unlock b], lockWait := false }

/-- `proxyrunner.makeNCopies`: parse copies (modelled as the parse result),
`TryLock` with fail-fast busy, existence check, begin with abort-on-error,
update the mirror section, metasync, register the notification listener
(which releases the lock later, so no unlock event on the commit path),
commit with `undoUpdateCopies` rollback on error. -/
def makeNCopies (copies : Option Int) (held : Bool) (bmd : BMD) (b : String)
    (beginRes commitRes : List (Option Err)) : TxnRes :=
  match copies with
  | none => { err := some .invalidNCopies, bmd := bmd, events := [], lockWait := false }
  | some n =>
    if held then
      { err := some (.bucketIsBusy b), bmd := bmd, events := [], lockWait := false }
    else
      match bmd.get b with
      | none =>
        { err := some (.bucketDoesNotExist b), bmd := bmd
          events := [.unlock b], lockWait := false }
      | some bprops =>
        match firstErr beginRes with
        | some e =>
          { err := some e, bmd := bmd
            events := [.beginBcast, .abortBcast, .unlock b], lockWait := false }
        | none =>
          let nprops := { bprops with mirror := { enabled := decide (n > 1), copies := n } }
          let bmd1 := bmd.set b nprops
          match firstErr commitRes with
          | some e =>
            { err := some e
              bmd := undoUpdateCopies bmd1 b bprops.mirror.copies bprops.mirror.enabled
              events := [.beginBcast, .metasync, .notifAdd, .commitBcast, .rollbackCopies]
              lockWait := false }
          | none =>
            { err := none, bmd := bmd1
              events := [.beginBcast, .metasync, .notifAdd, .commitBcast], lockWait := false }

/-- `cmn.MirrorConfToUpdate`: optional new values, nil pointers as none.
Modelled from the spec. -/
structure MirrorConfToUpdate where
  enabled : Option Bool
  copies : Option Int
deriving DecidableEq, Repr

/-- `cmn.ECConfToUpdate`. Modelled from the spec. -/
structure ECConfToUpdate where
  enabled : Option Bool
  dataSlices : Option Int
  paritySlices : Option Int
  sliceSize : Option Int
deriving DecidableEq, Repr

/-- `cmn.BucketPropsToUpdate`, restricted to the sections the transactions
touch. Modelled from the spec. -/
structure BucketPropsToUpdate where
  mirror : MirrorConfToUpdate
  ec : ECConfToUpdate
deriving DecidableEq, Repr

/-- `nprops.Apply(propsToUpdate)`: overwrite each field for which the
update carries a value. Modelled from the spec: set-props "recomputes
nprops deterministically" from the requested field updates. -/
def applyUpdate (p : BucketProps) (u : BucketPropsToUpdate) : BucketProps :=
  { p with
    mirror :=
      { enabled := u.mirror.enabled.getD p.mirror.enabled
        copies := u.mirror.copies.getD p.mirror.copies }
    ec :=
      { enabled := u.ec.enabled.getD p.ec.enabled
        dataSlices := u.ec.dataSlices.getD p.ec.dataSlices
        paritySlices := u.ec.paritySlices.getD p.ec.paritySlices
        sliceSize := u.ec.sliceSize.getD p.ec.sliceSize } }

/-- The mirror block of `makeNprops`: upgrade copies to
`max(cfg.Mirror.Copies, 2)` when the mirror is newly enabled with copies 1
(setting `remirror`); otherwise silently disable a mirror whose copies
equal 1. -/
def mirrorAdjust (cfgMirrorCopies : Int) (bpropsMirrorEnabled : Bool)
    (nprops : BucketProps) : BucketProps × Bool :=
  if !bpropsMirrorEnabled && nprops.mirror.enabled then
    (if nprops.mirror.copies = 1 then
      { nprops with mirror := { nprops.mirror with copies := max cfgMirrorCopies 2 } }
     else nprops, true)
  else if nprops.mirror.copies = 1 then
    ({ nprops with mirror := { nprops.mirror with enabled := false } }, false)
  else
    (nprops, false)

/-- `proxyrunner.makeNprops`: apply the update; reject any EC change while
EC stays enabled; default EC slice counts and mark `reec` when EC is newly
enabled; auto-upgrade copies to `max(cfg.Mirror.Copies, 2)` only when the
mirror is newly enabled with copies 1, otherwise silently disable a mirror
whose copies equal 1; finally run validation.  `validate` abstracts
`nprops.Validate(targetCnt)` (not under src/; modelled from the spec as an
unspecified read-only check).  Returns (nprops, remirror, reec, err). -/
def makeNprops (cfgMirrorCopies : Int) (targetCnt : Nat)
    (validate : BucketProps → Nat → Option Err)
    (bprops : BucketProps) (u : BucketPropsToUpdate) :
    BucketProps × Bool × Bool × Option Err :=
  let nprops := applyUpdate bprops u
  if bprops.ec.enabled && nprops.ec.enabled then
    if bprops.ec ≠ nprops.ec then
      (nprops, false, false, some .ecImmutable)
    else
      let adj := mirrorAdjust cfgMirrorCopies bprops.mirror.enabled nprops
      (adj.1, adj.2, false, validate adj.1 targetCnt)
  else if nprops.ec.enabled then
    let nprops := if nprops.ec.dataSlices = 0 then
      { nprops with ec := { nprops.ec with dataSlices := 1 } } else nprops
    let nprops := if nprops.ec.paritySlices = 0 then
      { nprops with ec := { nprops.ec with paritySlices := 1 } } else nprops
    let adj := mirrorAdjust cfgMirrorCopies bprops.mirror.enabled nprops
    (adj.1, adj.2, true, validate adj.1 targetCnt)
  else
    let adj := mirrorAdjust cfgMirrorCopies bprops.mirror.enabled nprops
    (adj.1, adj.2, false, validate adj.1 targetCnt)

/-- The two actions `setBucketProps` accepts. -/
inductive SetPropsAction where
  | setBprops
  | resetBprops
deriving DecidableEq, Repr

/-- `proxyrunner.setBucketProps`: `TryLock` with fail-fast busy, existence
check, compute nprops (`makeNprops` for set, defaults for reset) with
error return before begin, begin with abort-on-error, set the clone and
metasync, register a notification listener only when `remirror || reec`
(in which case the lock is released later by the listener), then broadcast
commit with the per-target results discarded (`_ = p.bcastPost`). -/
def setBucketProps (action : SetPropsAction) (cfgMirrorCopies : Int) (targetCnt : Nat)
    (validate : BucketProps → Nat → Option Err)
    (held : Bool) (bmd : BMD) (b : String) (u : BucketPropsToUpdate)
    (beginRes commitRes : List (Option Err)) : TxnRes :=
  if held then
    { err := some (.bucketIsBusy b), bmd := bmd, events := [], lockWait := false }
  else
    match bmd.get b with
    | none =>
      { err := some (.bucketDoesNotExist b), bmd := bmd
        events := [.unlock b], lockWait := false }
    | some bprops =>
      -- makeNprops is deterministic, hence computed once here; the source
      -- recomputes it under the BMD lock and asserts the absence of error
      let (nprops, remirror, reec, nerr) :=
        match action with
        | .setBprops => makeNprops cfgMirrorCopies targetCnt validate bprops u
        | .resetBprops => (defaultBucketProps, false, false, none)
      match nerr with
      | some e => { err := some e, bmd := bmd, events := [.unlock b], lockWait := false }
      | none =>
        match firstErr beginRes with
        | some e =>
          { err := some e, bmd := bmd
            events := [.beginBcast, .abortBcast, .unlock b], lockWait := false }
        | none =>
          -- commit results are discarded by the source
          let bmd1 := bmd.set b nprops
          if remirror || reec then
            { err := none, bmd := bmd1
              events := [.beginBcast, .metasync, .notifAdd, .commitBcast], lockWait := false }
          else
            { err := none, bmd := bmd1
              events := [.beginBcast, .metasync, .commitBcast, .unlock b], lockWait := false }

/-- `proxyrunner.renameBucket`: rebalance precondition, `TryLock` on both
names with fail-fast busy, source-exists and destination-absent checks,
begin with abort-on-error, add destination and mark source `Renamed`,
metasync BMD, bump RMD, broadcast commit with results discarded, register
the from/to notification listener (which releases both locks later), and
metasync the RMD. -/
def renameBucket (canRebalance : Bool) (heldFrom heldTo : Bool) (bmd : BMD)
    (bFrom bTo : String) (beginRes commitRes : List (Option Err)) : TxnRes :=
  if !canRebalance then
    { err := some .cannotStartRebalance, bmd := bmd, events := [], lockWait := false }
  else if heldFrom then
    { err := some (.bucketIsBusy bFrom), bmd := bmd, events := [], lockWait := false }
  else if heldTo then
    { err := some (.bucketIsBusy bTo), bmd := bmd, events := [.unlock bFrom], lockWait := false }
  else
    match bmd.get bFrom with
    | none =>
      { err := some (.bucketDoesNotExist bFrom), bmd := bmd
        events := [.unlock bTo, .unlock bFrom], lockWait := false }
    | some bprops =>
      if (bmd.get bTo).isSome then
        { err := some (.bucketAlreadyExists bTo), bmd := bmd
          events := [.unlock bTo, .unlock bFrom], lockWait := false }
      else
        match firstErr beginRes with
        | some e =>
          { err := some e, bmd := bmd
            events := [.beginBcast, .abortBcast, .unlock bTo, .unlock bFrom]
            lockWait := false }
        | none =>
          -- commit results are discarded by the source
          let bmd1 := (bmd.add bTo bprops).set bFrom { bprops with renamed := "renamelb" }
          { err := none, bmd := bmd1
            events := [.beginBcast, .metasync, .commitBcast, .notifAdd, .metasyncRMD]
            lockWait := false }

/-- `proxyrunner.copyBucket`: `TryRLock` source and `TryLock` destination
with fail-fast busy, source-exists check, begin with abort-on-error, add
the destination only if absent (metasyncing in that case), register the
from/to notification listener (which releases both locks later), then
broadcast commit with results discarded. -/
def copyBucket (heldFrom heldTo : Bool) (bmd : BMD) (bFrom bTo : String)
    (beginRes commitRes : List (Option Err)) : TxnRes :=
  if heldFrom then
    { err := some (.bucketIsBusy bFrom), bmd := bmd, events := [], lockWait := false }
  else if heldTo then
    { err := some (.bucketIsBusy bTo), bmd := bmd, events := [.runlock bFrom], lockWait := false }
  else
    match bmd.get bFrom with
    | none =>
      { err := some (.bucketDoesNotExist bFrom), bmd := bmd
        events := [.unlock bTo, .runlock bFrom], lockWait := false }
    | some bprops =>
      match firstErr beginRes with
      | some e =>
        { err := some e, bmd := bmd
          events := [.beginBcast, .abortBcast, .unlock bTo, .runlock bFrom]
          lockWait := false }
      | none =>
        -- commit results are discarded by the source
        if (bmd.get bTo).isSome then
          { err := none, bmd := bmd
            events := [.beginBcast, .notifAdd, .commitBcast], lockWait := false }
        else
          { err := none, bmd := bmd.add bTo bprops
            events := [.beginBcast, .metasync, .notifAdd, .commitBcast], lockWait := false }

/-- `proxyrunner.ecEncode`: parse the EC config (modelled as the parse
result), require both slice counts present and at least 1, `TryLock` with
fail-fast busy, existence check, reject when EC is already enabled, begin
with abort-on-error, enable EC with the requested slice counts, metasync,
register the notification listener (which releases the lock later), then
commit, returning the first commit error without any rollback. -/
def ecEncode (ecConf : Option ECConfToUpdate) (held : Bool) (bmd : BMD) (b : String)
    (beginRes commitRes : List (Option Err)) : TxnRes :=
  match ecConf with
  | none => { err := some .invalidECConf, bmd := bmd, events := [], lockWait := false }
  | some conf =>
    match conf.dataSlices, conf.paritySlices with
    | some d, some par =>
      if d < 1 ∨ par < 1 then
        { err := some .invalidECConf, bmd := bmd, events := [], lockWait := false }
      else if held then
        { err := some (.bucketIsBusy b), bmd := bmd, events := [], lockWait := false }
      else
        match bmd.get b with
        | none =>
          { err := some (.bucketDoesNotExist b), bmd := bmd
            events := [.unlock b], lockWait := false }
        | some props =>
          if props.ec.enabled then
            { err := some (.ecAlreadyEnabled b), bmd := bmd
              events := [.unlock b], lockWait := false }
          else
            match firstErr beginRes with
            | some e =>
              { err := some e, bmd := bmd
                events := [.beginBcast, .abortBcast, .unlock b], lockWait := false }
            | none =>
              let nprops := { props with
                ec := { props.ec with enabled := true, dataSlices := d, paritySlices := par } }
              let bmd1 := bmd.set b nprops
              match firstErr commitRes with
              | some e =>
                -- commit must go thru: the error is returned, with no rollback
                { err := some e, bmd := bmd1
                  events := [.beginBcast, .metasync, .notifAdd, .commitBcast]
                  lockWait := false }
              | none =>
                { err := none, bmd := bmd1
                  events := [.beginBcast, .metasync, .notifAdd, .commitBcast]
                  lockWait := false }
    | _, _ => { err := some .invalidECConf, bmd := bmd, events := [], lockWait := false }

/-! ## EC data plane (part_004: getJogger / putJogger) -/

/-- EC-level errors of the restore path. -/
inductive EcErr where
  | ecDisabled
  | noMetafile
deriving DecidableEq, Repr

/-- EC slice metadata sidecar (`ec.Metadata`): object size, data/parity
slice counts, replica flag, slice id (0 for the main object), object
checksum (the grouping key of `requestMeta`) and its type. -/
structure Metadata where
  size : Int
  data : Int
  parity : Int
  isCopy : Bool
  sliceID : Int
  checksum : String
  cksumType : String
deriving DecidableEq, Repr

/-- One target's reply to the `req-meta` broadcast: `none` covers the three
source-side skips (no writer registered, empty sidecar, unmarshal failure),
`some md` a valid metadata sidecar. -/
abbrev MetaReply := String × Option Metadata

/-- The valid `(daemon-id, metadata)` replies in iteration order: the
`metas` map built by `requestMeta`. -/
def validMetas (replies : List MetaReply) : List (String × Metadata) :=
  replies.filterMap (fun r => r.2.map (fun md => (r.1, md)))

/-- How many targets replied with a valid sidecar whose object checksum is
`ck`: the count `chk[ck]` of `requestMeta`. -/
def countCk (replies : List MetaReply) (ck : String) : Nat :=
  (replies.filter (fun r =>
    match r.2 with
    | some md => md.checksum == ck
    | none => false)).length

/-- Loop state of `getJogger.requestMeta`: the per-checksum counter map
`chk`, the valid replies `metas`, and the running plurality `chkMax`,
`chkVal`. -/
structure MetaScan where
  chk : String → Nat
  metas : List (String × Metadata)
  chkMax : Nat
  chkVal : String

/-- One iteration of the reply-processing loop of `requestMeta`. -/
def metaScanStep (st : MetaScan) (reply : MetaReply) : MetaScan :=
  match reply.2 with
  | none => st
  | some md =>
    let cnt := st.chk md.checksum + 1
    let chk := fun k => if k == md.checksum then cnt else st.chk k
    let metas := st.metas ++ [(reply.1, md)]
    if st.chkMax < cnt then
      { chk := chk, metas := metas, chkMax := cnt, chkVal := md.checksum }
    else
      { chk := chk, metas := metas, chkMax := st.chkMax, chkVal := st.chkVal }

/-- `getJogger.requestMeta`, after the broadcast: fold the replies through
the counting loop; if no valid reply arrived (`chkMax == 0`) return
`NoMetafile`; otherwise keep exactly the holders of the plurality checksum
`chkVal` (the loop re-assigns `meta` on every canonical holder, so the
returned metadata is the last one kept). -/
def requestMeta (replies : List MetaReply) :
    Except EcErr (Metadata × List (String × Metadata)) :=
  let st := replies.foldl metaScanStep ⟨fun _ => 0, [], 0, ""⟩
  if st.chkMax = 0 then
    .error .noMetafile
  else
    let nodes := st.metas.filter (fun kv => kv.2.checksum == st.chkVal)
    match nodes.getLast? with
    | some kv => .ok (kv.2, nodes)
    | none => .error .noMetafile -- unreachable: chkVal holds chkMax ≥ 1 replies

/-- The four ways `getJogger.restore` can end at the control level: the
two error returns before any data-plane work, or dispatching into
`restoreReplicated` / `restoreEncoded` (the only code paths that persist
payloads or metadata locally). -/
inductive RestoreOutcome where
  | ecDisabled
  | metaErr (e : EcErr)
  | insufficientSlices
  | runReplicated (meta : Metadata) (nodes : List (String × Metadata))
  | runEncoded (meta : Metadata) (nodes : List (String × Metadata))
deriving DecidableEq, Repr

/-- `true` exactly when the outcome reaches a data-plane call that writes
the object payload or metadata locally. -/
def RestoreOutcome.persistsLocally : RestoreOutcome → Bool
  | .runReplicated _ _ => true
  | .runEncoded _ _ => true
  | _ => false

/-- `getJogger.restore`: reject when the bucket has EC disabled; collect
and filter metadata via `requestMeta`; dispatch replicated restore for a
copy; otherwise require at least `meta.Data` canonical holders before
dispatching the encoded restore. -/
def restore (ecEnabled : Bool) (replies : List MetaReply) : RestoreOutcome :=
  if !ecEnabled then
    .ecDisabled
  else
    match requestMeta replies with
    | .error e => .metaErr e
    | .ok (meta, nodes) =>
      if meta.isCopy then
        .runReplicated meta nodes
      else if (nodes.length : Int) < meta.data then
        .insufficientSlices
      else
        .runEncoded meta nodes

/-- Observable local/remote actions of `putJogger.encode`, in program
order. `send` is a replica or slice payload transmitted to another target
(by `createCopies` or `sendSlices`), `writeMetaLocal` the slice-0 metadata
sidecar written to the local Meta content-type path (`ctMeta.Write`). -/
inductive EncEvent where
  | writeMetaLocal
  | send (tgt : String)
  | cleanupLocal
deriving DecidableEq, Repr

/-- Is this event a payload transmission to another target? -/
def EncEvent.isSend : EncEvent → Bool
  | .send _ => true
  | _ => false

/-- `putJogger.encode`: compute the required target count
(`parity+1` replicated, `data+parity+1` encoded) and fail if the cluster
is smaller; write the slice-0 metadata sidecar locally, failing on a write
error; then either replicate the full object (`createCopies`) or slice and
send (`sendSlices`), cleaning up on a downstream error, which is otherwise
swallowed.  The downstream calls are abstracted by the lists of targets
they send to and their error outcome. -/
def encode (dataSlices paritySlices : Int) (isCopy : Bool) (targetCnt : Int)
    (metaWriteErr : Option String)
    (copyTargets : List String) (copiesErr : Option String)
    (sliceTargets : List String) (slicesErr : Option String) :
    Option String × List EncEvent :=
  let reqTargets := paritySlices + 1 + (if isCopy then 0 else dataSlices)
  if targetCnt < reqTargets then
    (some "not enough targets to encode", [])
  else
    match metaWriteErr with
    | some e => (some e, [])
    | none =>
      if isCopy then
        match copiesErr with
        | some _ => (none, .writeMetaLocal :: (copyTargets.map .send ++ [.cleanupLocal]))
        | none => (none, .writeMetaLocal :: copyTargets.map .send)
      else
        match slicesErr with
        | some _ => (none, .writeMetaLocal :: (sliceTargets.map .send ++ [.cleanupLocal]))
        | none => (none, .writeMetaLocal :: sliceTargets.map .send)

/-! ## On-demand xaction idle machinery (xaction/demand/demand.go) -/

/-- `math.MaxInt64`: the "infinite" deadline stored by `IncPending`. -/
def maxInt64 : Int := 2 ^ 63 - 1

/-- State of one `XactDemandBase`: the `pending` counter, the idle
`deadline` (monotonic nanoseconds), whether the idle tick channel
(`idle.ticks`) has been closed, and the idle duration `idle.dur`. -/
structure DemandState where
  pending : Int
  deadline : Int
  closed : Bool
  dur : Int
deriving DecidableEq, Repr

/-- `NewXactDemandBase`: pending 0, deadline now + idle duration, channel
open. -/
def initDemand (now dur : Int) : DemandState :=
  { pending := 0, deadline := now + dur, closed := false, dur := dur }

/-- `startIdleTimer`: deadline := now + idle duration. -/
def startIdleTimer (now : Int) (s : DemandState) : DemandState :=
  { s with deadline := now + s.dur }

/-- `IncPending`: increment; on the 0 → 1 transition store the infinite
deadline `math.MaxInt64`. -/
def incPending (s : DemandState) : DemandState :=
  let p := s.pending + 1
  if p = 1 then { s with pending := p, deadline := maxInt64 }
  else { s with pending := p }

/-- `SubPending(n)`: subtract; when the counter reaches 0 re-arm the idle
timer.  `n` is the count of completed work items. -/
def subPending (now : Int) (n : Nat) (s : DemandState) : DemandState :=
  let p := s.pending - n
  if p = 0 then startIdleTimer now { s with pending := p }
  else { s with pending := p }

/-- `DecPending`. -/
def decPending (now : Int) (s : DemandState) : DemandState :=
  subPending now 1 s

/-- `Renew`: re-arm the idle timer only when nothing is pending. -/
def renewDemand (now : Int) (s : DemandState) : DemandState :=
  if s.pending = 0 then startIdleTimer now s else s

/-- The housekeeper callback registered by `NewXactDemandBase`: close the
idle tick channel when the deadline has passed. -/
def hkTick (now : Int) (s : DemandState) : DemandState :=
  if s.deadline < now then { s with closed := true } else s

/-- The operations that can interleave on one demand xaction (`Stop`
excluded: the claims concern the housekeeper callback only). -/
inductive DemandOp where
  | inc
  | dec (now : Int)
  | sub (now : Int) (n : Nat)
  | renew (now : Int)
  | tick (now : Int)
deriving DecidableEq, Repr

/-- Apply one operation. -/
def demandStep (s : DemandState) (op : DemandOp) : DemandState :=
  match op with
  | .inc => incPending s
  | .dec now => decPending now s
  | .sub now n => subPending now n s
  | .renew now => renewDemand now s
  | .tick now => hkTick now s

/-- Run a sequence of operations. -/
def demandRun (s : DemandState) (ops : List DemandOp) : DemandState :=
  ops.foldl demandStep s

/-- Along the run from `s`, every housekeeper tick fires at a moment when
the pending counter is positive. -/
def ticksOnlyWhilePending : DemandState → List DemandOp → Prop
  | _, [] => True
  | s, op :: ops =>
    (∀ now, op = .tick now → 0 < s.pending) ∧
      ticksOnlyWhilePending (demandStep s op) ops

/-! ## Theorems: demand xaction (C7) -/

/-- The mechanism invariant of the demand xaction: a positive pending
counter forces the infinite deadline. -/
def DemandInv (s : DemandState) : Prop :=
  0 < s.pending → s.deadline = maxInt64

theorem demandStep_preserves_inv (s : DemandState) (op : DemandOp)
    (h : DemandInv s) : DemandInv (demandStep s op) := by
  cases op with
  | inc =>
    simp only [demandStep, incPending]
    split
    · intro _; rfl
    · rename_i hne
      intro hp
      simp only at hp
      exact h (by omega)
  | dec now =>
    simp only [demandStep, decPending, subPending, startIdleTimer]
    split
    · rename_i hz
      intro hp
      simp only at hp
      omega
    · rename_i hz
      intro hp
      simp only at hp ⊢
      exact h (by omega)
  | sub now n =>
    simp only [demandStep, subPending, startIdleTimer]
    split
    · rename_i hz
      intro hp
      simp only at hp
      omega
    · rename_i hz
      intro hp
      simp only at hp ⊢
      have : (n : Int) ≥ 0 := Int.ofNat_nonneg n
      exact h (by omega)
  | renew now =>
    simp only [demandStep, renewDemand, startIdleTimer]
    split
    · rename_i hz
      intro hp
      simp only at hp
      omega
    · exact h
  | tick now =>
    simp only [demandStep, hkTick]
    split
    · intro hp
      simp only at hp ⊢
      exact h hp
    · exact h

theorem demandStep_preserves_open (s : DemandState) (op : DemandOp)
    (hinv : DemandInv s) (hopen : s.closed = false)
    (htick : ∀ now, op = .tick now → 0 < s.pending)
    (hbnd : ∀ now, op = .tick now → now < maxInt64) :
    (demandStep s op).closed = false := by
  cases op with
  | inc =>
    simp only [demandStep, incPending]
    split <;> simpa using hopen
  | dec now =>
    simp only [demandStep, decPending, subPending, startIdleTimer]
    split <;> simpa using hopen
  | sub now n =>
    simp only [demandStep, subPending, startIdleTimer]
    split <;> simpa using hopen
  | renew now =>
    simp only [demandStep, renewDemand, startIdleTimer]
    split <;> simpa using hopen
  | tick now =>
    simp only [demandStep, hkTick]
    have hp : 0 < s.pending := htick now rfl
    have hd : s.deadline = maxInt64 := hinv hp
    have hn : now < maxInt64 := hbnd now rfl
    split
    · rename_i hlt
      omega
    · exact hopen

theorem demandRun_preserves (ops : List DemandOp) (s : DemandState)
    (hinv : DemandInv s) : DemandInv (demandRun s ops) := by
  induction ops generalizing s with
  | nil => exact hinv
  | cons op ops ih =>
    exact ih (demandStep s op) (demandStep_preserves_inv s op hinv)

theorem demandRun_open (ops : List DemandOp) (s : DemandState)
    (hinv : DemandInv s) (hopen : s.closed = false)
    (hticks : ticksOnlyWhilePending s ops)
    (hbnd : ∀ now, DemandOp.tick now ∈ ops → now < maxInt64) :
    (demandRun s ops).closed = false := by
  induction ops generalizing s with
  | nil => exact hopen
  | cons op ops ih =>
    obtain ⟨ht, hts⟩ := hticks
    refine ih (demandStep s op) (demandStep_preserves_inv s op hinv) ?_ hts ?_
    · exact demandStep_preserves_open s op hinv hopen ht
        (fun now heq => hbnd now (heq ▸ List.mem_cons_self op ops))
    · exact fun now hmem => hbnd now (List.mem_cons_of_mem op hmem)

/-- C7: for a demand xaction, a positive pending counter keeps the idle
channel open.  Starting from `NewXactDemandBase` and running any
interleaving of `IncPending` / `DecPending` / `SubPending` / `Renew` and
housekeeper ticks (tick times below `math.MaxInt64`, as monotonic
nanotime is): (1) whenever pending is positive the stored deadline is the
infinite `math.MaxInt64` written by the 0 → 1 `IncPending` transition, so
(2) a housekeeper tick cannot change the idle-channel state while pending
is positive, and (3) if every tick of the run fired while pending was
positive, the idle tick channel is still open at the end. -/
theorem xactDemand_pending_keeps_idle_open (now0 dur : Int) (ops : List DemandOp) :
    (0 < (demandRun (initDemand now0 dur) ops).pending →
      (demandRun (initDemand now0 dur) ops).deadline = maxInt64) ∧
    (∀ now, now < maxInt64 → 0 < (demandRun (initDemand now0 dur) ops).pending →
      (hkTick now (demandRun (initDemand now0 dur) ops)).closed =
        (demandRun (initDemand now0 dur) ops).closed) ∧
    (ticksOnlyWhilePending (initDemand now0 dur) ops →
      (∀ now, DemandOp.tick now ∈ ops → now < maxInt64) →
      (demandRun (initDemand now0 dur) ops).closed = false) := by
  have hinv0 : DemandInv (initDemand now0 dur) := by
    intro hp
    simp [initDemand] at hp
  refine ⟨demandRun_preserves ops _ hinv0, ?_, ?_⟩
  · intro now hn hp
    have hd := demandRun_preserves ops _ hinv0 hp
    simp only [hkTick]
    split
    · rename_i hlt
      omega
    · rfl
  · intro hticks hbnd
    exact demandRun_open ops _ hinv0 rfl hticks hbnd

/-- Witness for C7: a concrete run — IncPending, a tick while pending is
positive (channel stays open), IncPending, DecPending to 1, DecPending to
0 — evaluated on both the invariant and the open-channel conclusion. -/
theorem xactDemand_pending_keeps_idle_open_witness :
    (demandRun (initDemand 0 100) [.inc, .tick 150, .inc, .dec 160]).closed = false ∧
    (0 < (demandRun (initDemand 0 100) [.inc, .tick 150, .inc, .dec 160]).pending →
      (demandRun (initDemand 0 100) [.inc, .tick 150, .inc, .dec 160]).deadline = maxInt64) := by
  have h := xactDemand_pending_keeps_idle_open 0 100 [.inc, .tick 150, .inc, .dec 160]
  have h1 : ticksOnlyWhilePending (initDemand 0 100)
      [DemandOp.inc, DemandOp.tick 150, DemandOp.inc, DemandOp.dec 160] := by
    simp only [ticksOnlyWhilePending]
    refine ⟨?_, ?_, ?_, ?_, trivial⟩
    · intro now hx; cases hx
    · intro now hx; decide
    · intro now hx; cases hx
    · intro now hx; cases hx
  have h2 : ∀ now : Int, DemandOp.tick now ∈
      [DemandOp.inc, DemandOp.tick 150, DemandOp.inc, DemandOp.dec 160] → now < maxInt64 := by
    intro now hmem
    simp at hmem
    subst hmem
    decide
  exact ⟨h.2.2 h1 h2, h.1⟩

/-! ## Theorems: makeNprops (C8, C9, C10) -/

/-- A validation stub for concrete evaluations: accepts everything. -/
def noValidate : BucketProps → Nat → Option Err := fun _ _ => none

/-- An update that touches nothing. -/
def updNone : BucketPropsToUpdate :=
  { mirror := { enabled := none, copies := none }
    ec := { enabled := none, dataSlices := none, paritySlices := none, sliceSize := none } }

/-- A bucket with mirroring already enabled at 3 copies and EC disabled. -/
def bpropsMirrored : BucketProps :=
  { defaultBucketProps with mirror := { enabled := true, copies := 3 } }

/-- The update that only sets mirror copies to 1. -/
def updCopiesOne : BucketPropsToUpdate :=
  { updNone with mirror := { enabled := none, copies := some 1 } }

/-- C9: on a bucket with EC enabled, an update that keeps EC enabled but
changes any EC configuration field makes `makeNprops` return the
immutability error (with remirror and reec unset and the updated nprops), and `setBucketProps` then returns that error before the begin
broadcast, leaving the BMD — hence the bucket's stored props — unchanged
and releasing the name-lock. -/
theorem makeNprops_ec_change_rejected (cfg : Int) (tc : Nat)
    (validate : BucketProps → Nat → Option Err)
    (bprops : BucketProps) (u : BucketPropsToUpdate)
    (h1 : bprops.ec.enabled = true)
    (h2 : (applyUpdate bprops u).ec.enabled = true)
    (h3 : bprops.ec ≠ (applyUpdate bprops u).ec) :
    makeNprops cfg tc validate bprops u =
      (applyUpdate bprops u, false, false, some .ecImmutable) ∧
    ∀ (bmd : BMD) (b : String) (brs crs : List (Option Err)),
      bmd.get b = some bprops →
      setBucketProps .setBprops cfg tc validate false bmd b u brs crs =
        { err := some .ecImmutable, bmd := bmd, events := [.unlock b], lockWait := false } := by
  have hmk : makeNprops cfg tc validate bprops u =
      (applyUpdate bprops u, false, false, some .ecImmutable) := by
    unfold makeNprops
    simp only [h1, h2, Bool.and_self, if_true]
    rw [if_pos h3]
  refine ⟨hmk, ?_⟩
  intro bmd b brs crs hget
  unfold setBucketProps
  simp only [Bool.false_eq_true, if_false, hget, hmk]

/-- Witness for C9: concrete EC-enabled bucket, update changing the data
slice count from 2 to 3. -/
theorem makeNprops_ec_change_rejected_witness :
    makeNprops 3 1 noValidate
        { defaultBucketProps with ec := { enabled := true, dataSlices := 2, paritySlices := 1, sliceSize := 0 } }
        { updNone with ec := { updNone.ec with dataSlices := some 3 } } =
      (applyUpdate
        { defaultBucketProps with ec := { enabled := true, dataSlices := 2, paritySlices := 1, sliceSize := 0 } }
        { updNone with ec := { updNone.ec with dataSlices := some 3 } },
        false, false, some .ecImmutable) ∧
    setBucketProps .setBprops 3 1 noValidate false
        ⟨0, [("b", { defaultBucketProps with ec := { enabled := true, dataSlices := 2, paritySlices := 1, sliceSize := 0 } })]⟩
        "b" { updNone with ec := { updNone.ec with dataSlices := some 3 } } [none] [] =
      { err := some .ecImmutable,
        bmd := ⟨0, [("b", { defaultBucketProps with ec := { enabled := true, dataSlices := 2, paritySlices := 1, sliceSize := 0 } })]⟩,
        events := [.unlock "b"], lockWait := false } := by
  have h := makeNprops_ec_change_rejected 3 1 noValidate
    { defaultBucketProps with ec := { enabled := true, dataSlices := 2, paritySlices := 1, sliceSize := 0 } }
    { updNone with ec := { updNone.ec with dataSlices := some 3 } }
    (by decide) (by decide) (by decide)
  exact ⟨h.1, h.2 _ "b" [none] [] (by decide)⟩

/-- Counterexample for C8: on a bucket whose mirroring is already enabled
(3 copies), the update `copies := 1` yields post-apply props with
mirroring enabled and copies 1, yet `makeNprops` (cluster config copies 3)
returns copies 1 — not `max(3, 2) = 3` — and silently disables mirroring
instead. -/
theorem makeNprops_copies_upgrade_claim_cex :
    (applyUpdate bpropsMirrored updCopiesOne).mirror.enabled = true ∧
    (applyUpdate bpropsMirrored updCopiesOne).mirror.copies = 1 ∧
    (makeNprops 3 1 noValidate bpropsMirrored updCopiesOne).1.mirror.copies ≠ max 3 2 ∧
    (makeNprops 3 1 noValidate bpropsMirrored updCopiesOne).1.mirror.copies = 1 ∧
    (makeNprops 3 1 noValidate bpropsMirrored updCopiesOne).1.mirror.enabled = false ∧
    (makeNprops 3 1 noValidate bpropsMirrored updCopiesOne).2.2.2 = none := by
  decide

/-- The mirror-adjust outcome when the mirror is newly enabled with
copies 1: copies are upgraded to `max(cfg, 2)` and remirror is set. -/
theorem mirrorAdjust_newly_enabled (cfg : Int) (np : BucketProps)
    (hen : np.mirror.enabled = true) (hc : np.mirror.copies = 1) :
    mirrorAdjust cfg false np =
      ({ np with mirror := { np.mirror with copies := max cfg 2 } }, true) := by
  unfold mirrorAdjust
  simp [hen, hc]

/-- The ec-section override leaves the mirror section untouched. -/
theorem ecOverride_mirror (q : BucketProps) (c : Prop) [Decidable c] (e : ECConf) :
    ((if c then { q with ec := e } else q) : BucketProps).mirror = q.mirror := by
  split <;> rfl

/-- C8 as amended: the copies auto-upgrade to `max(cfg.Mirror.Copies, 2)`
applies exactly to updates that *newly* enable mirroring (disabled before,
enabled with copies 1 after the update) and that the EC immutability check
does not reject first; `remirror` is set in that case. -/
theorem makeNprops_newly_enabled_mirror_upgrade (cfg : Int) (tc : Nat)
    (validate : BucketProps → Nat → Option Err)
    (bprops : BucketProps) (u : BucketPropsToUpdate)
    (h1 : bprops.mirror.enabled = false)
    (h2 : (applyUpdate bprops u).mirror.enabled = true)
    (h3 : (applyUpdate bprops u).mirror.copies = 1)
    (h4 : ¬(bprops.ec.enabled = true ∧ (applyUpdate bprops u).ec.enabled = true ∧
            bprops.ec ≠ (applyUpdate bprops u).ec)) :
    (makeNprops cfg tc validate bprops u).1.mirror.copies = max cfg 2 ∧
    (makeNprops cfg tc validate bprops u).1.mirror.enabled = true ∧
    (makeNprops cfg tc validate bprops u).2.1 = true := by
  have hgen : ∀ np : BucketProps, np.mirror = (applyUpdate bprops u).mirror →
      (mirrorAdjust cfg bprops.mirror.enabled np).1.mirror.copies = max cfg 2 ∧
      (mirrorAdjust cfg bprops.mirror.enabled np).1.mirror.enabled = true ∧
      (mirrorAdjust cfg bprops.mirror.enabled np).2 = true := by
    intro np hm
    have hen : np.mirror.enabled = true := by rw [hm]; exact h2
    have hc : np.mirror.copies = 1 := by rw [hm]; exact h3
    rw [h1, mirrorAdjust_newly_enabled cfg np hen hc]
    exact ⟨rfl, hen, rfl⟩
  unfold makeNprops
  by_cases hbe : bprops.ec.enabled = true
  · by_cases hae : (applyUpdate bprops u).ec.enabled = true
    · have heq : ¬bprops.ec ≠ (applyUpdate bprops u).ec := fun hx => h4 ⟨hbe, hae, hx⟩
      simp only [hbe, hae, Bool.and_self, if_true, if_neg heq]
      exact hgen _ rfl
    · rw [Bool.not_eq_true] at hae
      simp only [hbe, hae, Bool.and_false, Bool.false_eq_true, if_false]
      exact hgen _ rfl
  · rw [Bool.not_eq_true] at hbe
    simp only [hbe, Bool.false_and, Bool.false_eq_true, if_false]
    by_cases hae : (applyUpdate bprops u).ec.enabled = true
    · simp only [hae, if_true]
      exact hgen _ (by rw [ecOverride_mirror, ecOverride_mirror])
    · rw [Bool.not_eq_true] at hae
      simp only [hae, Bool.false_eq_true, if_false]
      exact hgen _ rfl

/-- Witness for C8 as amended: a bucket with mirroring off, update enabling
the mirror with copies 1, cluster config copies 3: the result has copies
`max 3 2 = 3`, mirror enabled, and remirror set. -/
theorem makeNprops_newly_enabled_mirror_upgrade_witness :
    (makeNprops 3 1 noValidate defaultBucketProps
      { updNone with mirror := { enabled := some true, copies := some 1 } }).1.mirror.copies =
        max 3 2 ∧
    (makeNprops 3 1 noValidate defaultBucketProps
      { updNone with mirror := { enabled := some true, copies := some 1 } }).1.mirror.enabled =
        true ∧
    (makeNprops 3 1 noValidate defaultBucketProps
      { updNone with mirror := { enabled := some true, copies := some 1 } }).2.1 = true := by
  exact makeNprops_newly_enabled_mirror_upgrade 3 1 noValidate defaultBucketProps
    { updNone with mirror := { enabled := some true, copies := some 1 } }
    (by decide) (by decide) (by decide) (by decide)

/-- A bucket with mirroring enabled (3 copies) and EC enabled (2 data, 1
parity). -/
def bpropsMirroredEC : BucketProps :=
  { defaultBucketProps with
    mirror := { enabled := true, copies := 3 }
    ec := { enabled := true, dataSlices := 2, paritySlices := 1, sliceSize := 0 } }

/-- The update that changes the EC data-slice count and sets mirror copies
to 1. -/
def updEcAndCopies : BucketPropsToUpdate :=
  { mirror := { enabled := none, copies := some 1 }
    ec := { enabled := none, dataSlices := some 3, paritySlices := none, sliceSize := none } }

/-- Counterexample for C10: an update that changes EC on an EC-enabled
bucket while also setting mirror copies to 1 on an already-mirrored bucket
is *rejected* (with the EC immutability error) and the resulting props
still have mirroring enabled — the claimed silent disable does not happen
on this input even though mirroring was not newly enabled and the
resulting copies equal 1. -/
theorem makeNprops_silent_disable_claim_cex :
    (¬((bpropsMirroredEC).mirror.enabled = false ∧
        (applyUpdate bpropsMirroredEC updEcAndCopies).mirror.enabled = true)) ∧
    (applyUpdate bpropsMirroredEC updEcAndCopies).mirror.copies = 1 ∧
    (makeNprops 3 1 noValidate bpropsMirroredEC updEcAndCopies).1.mirror.enabled = true ∧
    (makeNprops 3 1 noValidate bpropsMirroredEC updEcAndCopies).2.2.2 = some .ecImmutable := by
  decide

/-- C10 as amended: for every update that does not newly enable mirroring
and whose post-apply mirror copies equal 1, *provided the EC immutability
check does not reject the update first*, `makeNprops` silently disables
mirroring; and the returned error is exactly the validation result, so the
copies-equal-1 condition itself never causes a rejection. -/
theorem makeNprops_copies_one_disables_mirror (cfg : Int) (tc : Nat)
    (validate : BucketProps → Nat → Option Err)
    (bprops : BucketProps) (u : BucketPropsToUpdate)
    (h1 : ¬(bprops.mirror.enabled = false ∧ (applyUpdate bprops u).mirror.enabled = true))
    (h3 : (applyUpdate bprops u).mirror.copies = 1)
    (h4 : ¬(bprops.ec.enabled = true ∧ (applyUpdate bprops u).ec.enabled = true ∧
            bprops.ec ≠ (applyUpdate bprops u).ec)) :
    (makeNprops cfg tc validate bprops u).1.mirror.enabled = false ∧
    (makeNprops cfg tc validate bprops u).2.2.2 =
      validate (makeNprops cfg tc validate bprops u).1 tc := by
  have hgen : ∀ np : BucketProps, np.mirror = (applyUpdate bprops u).mirror →
      (mirrorAdjust cfg bprops.mirror.enabled np).1.mirror.enabled = false := by
    intro np hm
    have hc : np.mirror.copies = 1 := by rw [hm]; exact h3
    have hcond : (!bprops.mirror.enabled && np.mirror.enabled) = false := by
      cases hben : bprops.mirror.enabled with
      | true => simp
      | false =>
        cases hen : np.mirror.enabled with
        | false => simp
        | true =>
          rw [hm] at hen
          exact absurd ⟨hben, hen⟩ h1
    unfold mirrorAdjust
    rw [hcond]
    simp [hc]
  unfold makeNprops
  by_cases hbe : bprops.ec.enabled = true
  · by_cases hae : (applyUpdate bprops u).ec.enabled = true
    · have heq : ¬bprops.ec ≠ (applyUpdate bprops u).ec := fun hx => h4 ⟨hbe, hae, hx⟩
      simp only [hbe, hae, Bool.and_self, if_true, if_neg heq]
      exact ⟨hgen _ rfl, trivial⟩
    · rw [Bool.not_eq_true] at hae
      simp only [hbe, hae, Bool.and_false, Bool.false_eq_true, if_false]
      exact ⟨hgen _ rfl, trivial⟩
  · rw [Bool.not_eq_true] at hbe
    simp only [hbe, Bool.false_and, Bool.false_eq_true, if_false]
    by_cases hae : (applyUpdate bprops u).ec.enabled = true
    · simp only [hae, if_true]
      exact ⟨hgen _ (by rw [ecOverride_mirror, ecOverride_mirror]), trivial⟩
    · rw [Bool.not_eq_true] at hae
      simp only [hae, Bool.false_eq_true, if_false]
      exact ⟨hgen _ rfl, trivial⟩

/-- Witness for C10 as amended: setting copies to 1 on the already-mirrored
bucket silently turns mirroring off, with the (accepting) validation result
as the returned error. -/
theorem makeNprops_copies_one_disables_mirror_witness :
    (makeNprops 3 1 noValidate bpropsMirrored updCopiesOne).1.mirror.enabled = false ∧
    (makeNprops 3 1 noValidate bpropsMirrored updCopiesOne).2.2.2 =
      noValidate (makeNprops 3 1 noValidate bpropsMirrored updCopiesOne).1 1 := by
  exact makeNprops_copies_one_disables_mirror 3 1 noValidate bpropsMirrored updCopiesOne
    (by decide) (by decide) (by decide)

/-! ## Theorems: two-phase transaction protocol (C1, C2, C3) -/

/-- C1: for each of the six structural bucket transactions driven by the
primary (create-bucket, make-n-copies, set-bucket-props, rename-bucket,
copy-bucket, ec-encode), when some target's begin broadcast returns an
error and the operation has passed its preconditions, the proxy broadcasts
abort, releases the bucket name-lock(s), returns the first error received,
and leaves the BMD unchanged. -/
theorem txn_begin_error_aborts :
    (∀ (bmd : BMD) (b : String) (props : BucketProps) (brs crs : List (Option Err)) (e : Err),
      bmd.get b = none → firstErr brs = some e →
      createBucket false bmd b props brs crs =
        { err := some e, bmd := bmd, events := [.beginBcast, .abortBcast, .unlock b],
          lockWait := false }) ∧
    (∀ (bmd : BMD) (b : String) (n : Int) (bp : BucketProps) (brs crs : List (Option Err))
        (e : Err),
      bmd.get b = some bp → firstErr brs = some e →
      makeNCopies (some n) false bmd b brs crs =
        { err := some e, bmd := bmd, events := [.beginBcast, .abortBcast, .unlock b],
          lockWait := false }) ∧
    (∀ (cfg : Int) (tc : Nat) (validate : BucketProps → Nat → Option Err) (bmd : BMD)
        (b : String) (bp np : BucketProps) (rm re : Bool) (u : BucketPropsToUpdate)
        (brs crs : List (Option Err)) (e : Err),
      bmd.get b = some bp →
      makeNprops cfg tc validate bp u = (np, rm, re, none) →
      firstErr brs = some e →
      setBucketProps .setBprops cfg tc validate false bmd b u brs crs =
        { err := some e, bmd := bmd, events := [.beginBcast, .abortBcast, .unlock b],
          lockWait := false }) ∧
    (∀ (bmd : BMD) (bFrom bTo : String) (bp : BucketProps) (brs crs : List (Option Err))
        (e : Err),
      bmd.get bFrom = some bp → bmd.get bTo = none → firstErr brs = some e →
      renameBucket true false false bmd bFrom bTo brs crs =
        { err := some e, bmd := bmd,
          events := [.beginBcast, .abortBcast, .unlock bTo, .unlock bFrom],
          lockWait := false }) ∧
    (∀ (bmd : BMD) (bFrom bTo : String) (bp : BucketProps) (brs crs : List (Option Err))
        (e : Err),
      bmd.get bFrom = some bp → firstErr brs = some e →
      copyBucket false false bmd bFrom bTo brs crs =
        { err := some e, bmd := bmd,
          events := [.beginBcast, .abortBcast, .unlock bTo, .runlock bFrom],
          lockWait := false }) ∧
    (∀ (d par : Int) (ss : Option Int) (en : Option Bool) (bmd : BMD) (b : String)
        (props : BucketProps) (brs crs : List (Option Err)) (e : Err),
      1 ≤ d → 1 ≤ par → bmd.get b = some props → props.ec.enabled = false →
      firstErr brs = some e →
      ecEncode (some ⟨en, some d, some par, ss⟩) false bmd b brs crs =
        { err := some e, bmd := bmd, events := [.beginBcast, .abortBcast, .unlock b],
          lockWait := false }) := by
  refine ⟨?_, ?_, ?_, ?_, ?_, ?_⟩
  · intro bmd b props brs crs e hget hb
    simp [createBucket, hget, hb]
  · intro bmd b n bp brs crs e hget hb
    simp [makeNCopies, hget, hb]
  · intro cfg tc validate bmd b bp np rm re u brs crs e hget hmk hb
    simp [setBucketProps, hget, hmk, hb]
  · intro bmd bFrom bTo bp brs crs e hgf hgt hb
    simp [renameBucket, hgf, hgt, hb]
  · intro bmd bFrom bTo bp brs crs e hgf hb
    simp [copyBucket, hgf, hb]
  · intro d par ss en bmd b props brs crs e hd hpar hget hec hb
    have hlt : ¬(d < 1 ∨ par < 1) := by omega
    simp [ecEncode, hget, hec, hb, hlt]

/-- Witness for C1: each of the six conjuncts applied at a concrete
one-target cluster whose begin broadcast fails. -/
theorem txn_begin_error_aborts_witness :
    createBucket false ⟨0, []⟩ "b" defaultBucketProps [some (.fromTarget 1)] [] =
      { err := some (.fromTarget 1), bmd := ⟨0, []⟩,
        events := [.beginBcast, .abortBcast, .unlock "b"], lockWait := false } ∧
    makeNCopies (some 2) false ⟨0, [("b", defaultBucketProps)]⟩ "b"
        [some (.fromTarget 2)] [] =
      { err := some (.fromTarget 2), bmd := ⟨0, [("b", defaultBucketProps)]⟩,
        events := [.beginBcast, .abortBcast, .unlock "b"], lockWait := false } ∧
    setBucketProps .setBprops 3 1 noValidate false ⟨0, [("b", defaultBucketProps)]⟩ "b"
        updNone [some (.fromTarget 3)] [] =
      { err := some (.fromTarget 3), bmd := ⟨0, [("b", defaultBucketProps)]⟩,
        events := [.beginBcast, .abortBcast, .unlock "b"], lockWait := false } ∧
    renameBucket true false false ⟨0, [("b", defaultBucketProps)]⟩ "b" "c"
        [some (.fromTarget 4)] [] =
      { err := some (.fromTarget 4), bmd := ⟨0, [("b", defaultBucketProps)]⟩,
        events := [.beginBcast, .abortBcast, .unlock "c", .unlock "b"], lockWait := false } ∧
    copyBucket false false ⟨0, [("b", defaultBucketProps)]⟩ "b" "c"
        [some (.fromTarget 5)] [] =
      { err := some (.fromTarget 5), bmd := ⟨0, [("b", defaultBucketProps)]⟩,
        events := [.beginBcast, .abortBcast, .unlock "c", .runlock "b"], lockWait := false } ∧
    ecEncode (some ⟨none, some 1, some 1, none⟩) false ⟨0, [("b", defaultBucketProps)]⟩ "b"
        [some (.fromTarget 6)] [] =
      { err := some (.fromTarget 6), bmd := ⟨0, [("b", defaultBucketProps)]⟩,
        events := [.beginBcast, .abortBcast, .unlock "b"], lockWait := false } := by
  have h := txn_begin_error_aborts
  refine ⟨h.1 _ _ _ _ _ _ rfl rfl, h.2.1 _ _ 2 defaultBucketProps _ _ _ (by decide) rfl,
    h.2.2.1 3 1 noValidate _ "b" defaultBucketProps defaultBucketProps false false updNone
      _ _ _ (by decide) (by decide) rfl,
    h.2.2.2.1 _ "b" "c" defaultBucketProps _ _ _ (by decide) (by decide) rfl,
    h.2.2.2.2.1 _ "b" "c" defaultBucketProps _ _ _ (by decide) rfl,
    h.2.2.2.2.2 1 1 none none _ "b" defaultBucketProps _ _ _ (by decide) (by decide)
      (by decide) (by decide) rfl⟩

/-- Counterexample for C2: `setBucketProps` has a commit phase, yet when
the commit broadcast reports a target error the operation returns no error
and performs no compensating rollback (the source discards the commit
results: `_ = p.bcastPost(...)`). -/
theorem txn_commit_rollback_claim_cex :
    (setBucketProps .setBprops 3 1 noValidate false ⟨0, [("b", defaultBucketProps)]⟩ "b"
        updNone [none] [some (.fromTarget 7)]).err = none ∧
    Event.rollbackCreate ∉
      (setBucketProps .setBprops 3 1 noValidate false ⟨0, [("b", defaultBucketProps)]⟩ "b"
        updNone [none] [some (.fromTarget 7)]).events ∧
    Event.rollbackCopies ∉
      (setBucketProps .setBprops 3 1 noValidate false ⟨0, [("b", defaultBucketProps)]⟩ "b"
        updNone [none] [some (.fromTarget 7)]).events := by
  decide

/-- C2 as amended: only create-bucket and make-n-copies react to a commit
error with their compensating rollback (`undoCreateBucket`,
`undoUpdateCopies`) and return the error; ec-encode returns the commit
error without any rollback; and set-bucket-props, rename-bucket and
copy-bucket discard the commit results entirely — their outcome does not
depend on them. -/
theorem txn_commit_error_rollback :
    (∀ (bmd : BMD) (b : String) (props : BucketProps) (brs crs : List (Option Err)) (e : Err),
      bmd.get b = none → firstErr brs = none → firstErr crs = some e →
      createBucket false bmd b props brs crs =
        { err := some e, bmd := undoCreateBucket (bmd.add b props) b,
          events := [.beginBcast, .metasync, .commitBcast, .rollbackCreate, .unlock b],
          lockWait := false }) ∧
    (∀ (bmd : BMD) (b : String) (n : Int) (bp : BucketProps) (brs crs : List (Option Err))
        (e : Err),
      bmd.get b = some bp → firstErr brs = none → firstErr crs = some e →
      makeNCopies (some n) false bmd b brs crs =
        { err := some e,
          bmd := undoUpdateCopies
            (bmd.set b { bp with mirror := { enabled := decide (n > 1), copies := n } }) b
            bp.mirror.copies bp.mirror.enabled,
          events := [.beginBcast, .metasync, .notifAdd, .commitBcast, .rollbackCopies],
          lockWait := false }) ∧
    (∀ (d par : Int) (ss : Option Int) (en : Option Bool) (bmd : BMD) (b : String)
        (props : BucketProps) (brs crs : List (Option Err)) (e : Err),
      1 ≤ d → 1 ≤ par → bmd.get b = some props → props.ec.enabled = false →
      firstErr brs = none → firstErr crs = some e →
      (ecEncode (some ⟨en, some d, some par, ss⟩) false bmd b brs crs).err = some e ∧
      Event.rollbackCreate ∉
        (ecEncode (some ⟨en, some d, some par, ss⟩) false bmd b brs crs).events ∧
      Event.rollbackCopies ∉
        (ecEncode (some ⟨en, some d, some par, ss⟩) false bmd b brs crs).events) ∧
    (∀ (a : SetPropsAction) (cfg : Int) (tc : Nat) (validate : BucketProps → Nat → Option Err)
        (held : Bool) (bmd : BMD) (b : String) (u : BucketPropsToUpdate)
        (brs crs crs2 : List (Option Err)),
      setBucketProps a cfg tc validate held bmd b u brs crs =
        setBucketProps a cfg tc validate held bmd b u brs crs2) ∧
    (∀ (cr hf ht : Bool) (bmd : BMD) (bFrom bTo : String) (brs crs crs2 : List (Option Err)),
      renameBucket cr hf ht bmd bFrom bTo brs crs =
        renameBucket cr hf ht bmd bFrom bTo brs crs2) ∧
    (∀ (hf ht : Bool) (bmd : BMD) (bFrom bTo : String) (brs crs crs2 : List (Option Err)),
      copyBucket hf ht bmd bFrom bTo brs crs = copyBucket hf ht bmd bFrom bTo brs crs2) := by
  refine ⟨?_, ?_, ?_, fun _ _ _ _ _ _ _ _ _ _ _ => rfl, fun _ _ _ _ _ _ _ _ _ => rfl,
    fun _ _ _ _ _ _ _ _ => rfl⟩
  · intro bmd b props brs crs e hget hb hc
    simp [createBucket, hget, hb, hc]
  · intro bmd b n bp brs crs e hget hb hc
    simp [makeNCopies, hget, hb, hc]
  · intro d par ss en bmd b props brs crs e hd hpar hget hec hb hc
    have hlt : ¬(d < 1 ∨ par < 1) := by omega
    refine ⟨?_, ?_, ?_⟩ <;> simp [ecEncode, hget, hec, hb, hc, hlt]

/-- Witness for C2 as amended: concrete commit failures for create-bucket,
make-n-copies, and ec-encode, plus commit-result independence at concrete
inputs for the other three operations. -/
theorem txn_commit_error_rollback_witness :
    createBucket false ⟨0, []⟩ "b" defaultBucketProps [none] [some (.fromTarget 1)] =
      { err := some (.fromTarget 1),
        bmd := undoCreateBucket ((BMD.mk 0 []).add "b" defaultBucketProps) "b",
        events := [.beginBcast, .metasync, .commitBcast, .rollbackCreate, .unlock "b"],
        lockWait := false } ∧
    makeNCopies (some 2) false ⟨0, [("b", defaultBucketProps)]⟩ "b" [none]
        [some (.fromTarget 2)] =
      { err := some (.fromTarget 2),
        bmd := undoUpdateCopies
          ((BMD.mk 0 [("b", defaultBucketProps)]).set "b"
            { defaultBucketProps with mirror := { enabled := decide ((2 : Int) > 1), copies := 2 } })
          "b" defaultBucketProps.mirror.copies defaultBucketProps.mirror.enabled,
        events := [.beginBcast, .metasync, .notifAdd, .commitBcast, .rollbackCopies],
        lockWait := false } ∧
    (ecEncode (some ⟨none, some 1, some 1, none⟩) false ⟨0, [("b", defaultBucketProps)]⟩ "b"
        [none] [some (.fromTarget 3)]).err = some (.fromTarget 3) ∧
    setBucketProps .setBprops 3 1 noValidate false ⟨0, [("b", defaultBucketProps)]⟩ "b"
        updNone [none] [some (.fromTarget 4)] =
      setBucketProps .setBprops 3 1 noValidate false ⟨0, [("b", defaultBucketProps)]⟩ "b"
        updNone [none] [] := by
  have h := txn_commit_error_rollback
  refine ⟨h.1 _ _ _ _ _ _ rfl rfl rfl,
    h.2.1 _ _ 2 defaultBucketProps _ _ _ (by decide) rfl rfl, ?_, ?_⟩
  · exact (h.2.2.1 1 1 none none _ "b" defaultBucketProps [none] [some (.fromTarget 3)]
      (.fromTarget 3) (by decide) (by decide) (by decide) (by decide) rfl rfl).1
  · exact h.2.2.2.1 .setBprops 3 1 noValidate false _ "b" updNone [none]
      [some (.fromTarget 4)] []

/-- Counterexample for C3: create-bucket and destroy-bucket do *not*
acquire the name-lock with `TryLock`: on a bucket whose lock is already
held they block on `nlp.Lock()` instead of failing fast with
`BucketIsBusy` (the destroy-bucket source even carries a
"TODO: try-lock" comment). -/
theorem nameLock_trylock_claim_cex :
    (createBucket true ⟨0, []⟩ "b" defaultBucketProps [] []).err ≠
      some (.bucketIsBusy "b") ∧
    (createBucket true ⟨0, []⟩ "b" defaultBucketProps [] []).lockWait = true ∧
    (destroyBucket true ⟨0, []⟩ "b").err ≠ some (.bucketIsBusy "b") ∧
    (destroyBucket true ⟨0, []⟩ "b").lockWait = true := by
  decide

/-- C3 as amended: make-n-copies, set-bucket-props, rename-bucket,
copy-bucket and ec-encode acquire the bucket name-lock with `TryLock` and,
when a conflicting operation holds it, fail fast with `BucketIsBusy`
leaving the BMD unchanged and performing no action; create-bucket and
destroy-bucket instead block on `nlp.Lock()` until the holder releases. -/
theorem nameLock_trylock_busy :
    (∀ (bmd : BMD) (b : String) (n : Int) (brs crs : List (Option Err)),
      makeNCopies (some n) true bmd b brs crs =
        { err := some (.bucketIsBusy b), bmd := bmd, events := [], lockWait := false }) ∧
    (∀ (a : SetPropsAction) (cfg : Int) (tc : Nat) (validate : BucketProps → Nat → Option Err)
        (bmd : BMD) (b : String) (u : BucketPropsToUpdate) (brs crs : List (Option Err)),
      setBucketProps a cfg tc validate true bmd b u brs crs =
        { err := some (.bucketIsBusy b), bmd := bmd, events := [], lockWait := false }) ∧
    (∀ (ht : Bool) (bmd : BMD) (bFrom bTo : String) (brs crs : List (Option Err)),
      renameBucket true true ht bmd bFrom bTo brs crs =
        { err := some (.bucketIsBusy bFrom), bmd := bmd, events := [], lockWait := false }) ∧
    (∀ (ht : Bool) (bmd : BMD) (bFrom bTo : String) (brs crs : List (Option Err)),
      copyBucket true ht bmd bFrom bTo brs crs =
        { err := some (.bucketIsBusy bFrom), bmd := bmd, events := [], lockWait := false }) ∧
    (∀ (d par : Int) (ss : Option Int) (en : Option Bool) (bmd : BMD) (b : String)
        (brs crs : List (Option Err)),
      1 ≤ d → 1 ≤ par →
      ecEncode (some ⟨en, some d, some par, ss⟩) true bmd b brs crs =
        { err := some (.bucketIsBusy b), bmd := bmd, events := [], lockWait := false }) ∧
    (∀ (bmd : BMD) (b : String) (props : BucketProps) (brs crs : List (Option Err)),
      createBucket true bmd b props brs crs =
        { err := none, bmd := bmd, events := [], lockWait := true }) ∧
    (∀ (bmd : BMD) (b : String),
      destroyBucket true bmd b = { err := none, bmd := bmd, events := [], lockWait := true }) := by
  refine ⟨fun _ _ _ _ _ => rfl, fun a _ _ _ _ _ _ _ _ => by cases a <;> rfl,
    fun _ _ _ _ _ _ => rfl, fun _ _ _ _ _ _ => rfl, ?_,
    fun _ _ _ _ _ => rfl, fun _ _ => rfl⟩
  intro d par ss en bmd b brs crs hd hpar
  have hlt : ¬(d < 1 ∨ par < 1) := by omega
  simp [ecEncode, hlt]

/-- Witness for C3 as amended: each TryLock operation on a held lock at a
concrete input returns `BucketIsBusy`, and create/destroy block. -/
theorem nameLock_trylock_busy_witness :
    makeNCopies (some 2) true ⟨0, []⟩ "b" [] [] =
      { err := some (.bucketIsBusy "b"), bmd := ⟨0, []⟩, events := [], lockWait := false } ∧
    setBucketProps .setBprops 3 1 noValidate true ⟨0, []⟩ "b" updNone [] [] =
      { err := some (.bucketIsBusy "b"), bmd := ⟨0, []⟩, events := [], lockWait := false } ∧
    renameBucket true true false ⟨0, []⟩ "b" "c" [] [] =
      { err := some (.bucketIsBusy "b"), bmd := ⟨0, []⟩, events := [], lockWait := false } ∧
    copyBucket true false ⟨0, []⟩ "b" "c" [] [] =
      { err := some (.bucketIsBusy "b"), bmd := ⟨0, []⟩, events := [], lockWait := false } ∧
    ecEncode (some ⟨none, some 1, some 1, none⟩) true ⟨0, []⟩ "b" [] [] =
      { err := some (.bucketIsBusy "b"), bmd := ⟨0, []⟩, events := [], lockWait := false } ∧
    createBucket true ⟨0, []⟩ "b" defaultBucketProps [] [] =
      { err := none, bmd := ⟨0, []⟩, events := [], lockWait := true } := by
  have h := nameLock_trylock_busy
  exact ⟨h.1 _ _ 2 _ _, h.2.1 .setBprops 3 1 noValidate _ "b" updNone [] [],
    h.2.2.1 false _ "b" "c" [] [], h.2.2.2.1 false _ "b" "c" [] [],
    h.2.2.2.2.1 1 1 none none _ "b" [] [] (by decide) (by decide),
    h.2.2.2.2.2.1 _ "b" defaultBucketProps [] []⟩

/-! ## Theorems: EC restore metadata plurality (C4, C5) -/

theorem countCk_append (p : List MetaReply) (r : MetaReply) (ck : String) :
    countCk (p ++ [r]) ck = countCk p ck +
      (match r.2 with
       | some md => if md.checksum == ck then 1 else 0
       | none => 0) := by
  cases hr : r.2 with
  | none =>
    simp [countCk, List.filter_append, List.filter_cons, List.filter_nil, hr]
  | some md =>
    by_cases hck : (md.checksum == ck) = true
    · simp [countCk, List.filter_append, List.filter_cons, List.filter_nil, hr, hck]
    · simp [countCk, List.filter_append, List.filter_cons, List.filter_nil, hr, hck]

theorem validMetas_append (p : List MetaReply) (r : MetaReply) :
    validMetas (p ++ [r]) = validMetas p ++
      (match r.2 with
       | some md => [(r.1, md)]
       | none => []) := by
  cases hr : r.2 <;> simp [validMetas, List.filterMap_append, hr]

theorem countCk_filter_valid (p : List MetaReply) (ck : String) :
    ((validMetas p).filter (fun kv => kv.2.checksum == ck)).length = countCk p ck := by
  induction p with
  | nil => rfl
  | cons r rs ih =>
    cases hr : r.2 with
    | none =>
      simpa [validMetas, countCk, List.filterMap_cons, List.filter_cons, hr] using ih
    | some md =>
      by_cases hck : (md.checksum == ck) = true
      · simpa [validMetas, countCk, List.filterMap_cons, List.filter_cons, hr, hck] using ih
      · simpa [validMetas, countCk, List.filterMap_cons, List.filter_cons, hr, hck] using ih

/-- Loop invariant of the reply scan in `requestMeta`: the counter map
tracks per-checksum counts, `metas` is the valid prefix, `chkMax` bounds
every count and is attained by `chkVal` when nonzero. -/
structure ScanOk (processed : List MetaReply) (st : MetaScan) : Prop where
  chk_eq : ∀ ck, st.chk ck = countCk processed ck
  metas_eq : st.metas = validMetas processed
  le_max : ∀ ck, countCk processed ck ≤ st.chkMax
  val_eq : st.chkMax ≠ 0 → countCk processed st.chkVal = st.chkMax
  zero_nil : st.chkMax = 0 → validMetas processed = []

theorem scanStep_ok (processed : List MetaReply) (st : MetaScan) (r : MetaReply)
    (h : ScanOk processed st) : ScanOk (processed ++ [r]) (metaScanStep st r) := by
  obtain ⟨hchk, hmetas, hle, hval, hzero⟩ := h
  cases hr : r.2 with
  | none =>
    have hstep : metaScanStep st r = st := by simp [metaScanStep, hr]
    have hcnt : ∀ ck, countCk (processed ++ [r]) ck = countCk processed ck := by
      intro ck; rw [countCk_append]; simp [hr]
    have hvm : validMetas (processed ++ [r]) = validMetas processed := by
      rw [validMetas_append]; simp [hr]
    rw [hstep]
    exact ⟨fun ck => by rw [hcnt]; exact hchk ck,
           by rw [hvm]; exact hmetas,
           fun ck => by rw [hcnt]; exact hle ck,
           fun h0 => by rw [hcnt]; exact hval h0,
           fun h0 => by rw [hvm]; exact hzero h0⟩
  | some md =>
    have hcnt : ∀ ck, countCk (processed ++ [r]) ck =
        countCk processed ck + (if md.checksum == ck then 1 else 0) := by
      intro ck; rw [countCk_append]; simp [hr]
    have hvm : validMetas (processed ++ [r]) = validMetas processed ++ [(r.1, md)] := by
      rw [validMetas_append]; simp [hr]
    have hchk' : ∀ ck, (if ck == md.checksum then st.chk md.checksum + 1 else st.chk ck) =
        countCk (processed ++ [r]) ck := by
      intro ck
      by_cases hck : ck = md.checksum
      · subst hck
        simp [hcnt, hchk]
      · rw [if_neg (by simpa using hck), hcnt, hchk]
        have : (md.checksum == ck) = false := by
          simpa using fun he => hck he.symm
        simp [this]
    simp only [metaScanStep, hr]
    by_cases hgt : st.chkMax < st.chk md.checksum + 1
    · rw [if_pos hgt]
      refine ⟨fun ck => (hchk' ck), by simpa [hvm] using hmetas, ?_, ?_, ?_⟩
      · intro ck
        by_cases hck : md.checksum = ck
        · subst hck
          rw [hcnt]
          simp [hchk md.checksum]
        · rw [hcnt]
          have hb : (md.checksum == ck) = false := by simpa using hck
          have := hle ck
          simp [hb]
          omega
      · intro _
        rw [hcnt]
        simp [hchk md.checksum]
      · intro h0
        simp at h0
    · rw [if_neg hgt]
      have hcle : st.chk md.checksum + 1 ≤ st.chkMax := Nat.le_of_not_lt hgt
      have hmaxpos : st.chkMax ≠ 0 := by omega
      have hvne : md.checksum ≠ st.chkVal := by
        intro he
        have h1 := hval hmaxpos
        have h2 := hchk st.chkVal
        rw [he] at hcle
        omega
      refine ⟨fun ck => (hchk' ck), by simpa [hvm] using hmetas, ?_, ?_, ?_⟩
      · intro ck
        rw [hcnt]
        by_cases hck : md.checksum = ck
        · subst hck
          have := hchk md.checksum
          simp
          omega
        · have hb : (md.checksum == ck) = false := by simpa using hck
          have := hle ck
          simp [hb]
          omega
      · intro _
        rw [hcnt]
        have hb : (md.checksum == st.chkVal) = false := by simpa using hvne
        simp [hb]
        exact hval hmaxpos
      · intro h0
        exact absurd h0 hmaxpos

theorem scanFold_ok (replies : List MetaReply) :
    ScanOk replies (replies.foldl metaScanStep ⟨fun _ => 0, [], 0, ""⟩) := by
  have base : ScanOk [] ⟨fun _ => 0, [], 0, ""⟩ :=
    ⟨fun _ => rfl, rfl, fun _ => Nat.le_refl 0, fun h => absurd rfl h, fun _ => rfl⟩
  suffices h : ∀ (rs processed : List MetaReply) (st : MetaScan),
      ScanOk processed st → ScanOk (processed ++ rs) (rs.foldl metaScanStep st) by
    simpa using h replies [] _ base
  intro rs
  induction rs with
  | nil => intro processed st h; simpa using h
  | cons r rs ih =>
    intro processed st h
    have := ih (processed ++ [r]) (metaScanStep st r) (scanStep_ok processed st r h)
    simpa using this

/-- C4: `requestMeta` groups the valid metadata replies by object
checksum, selects a plurality checksum as canonical (no other checksum is
held by more responders), returns exactly the nodes holding the canonical
checksum (dissenters discarded, at least one survivor, the returned
metadata among them), and returns `NoMetafile` if and only if no target
returned a valid metadata sidecar. -/
theorem requestMeta_plurality (replies : List MetaReply) :
    (requestMeta replies = .error .noMetafile ↔ ∀ r ∈ replies, r.2 = none) ∧
    (∀ (meta : Metadata) (nodes : List (String × Metadata)),
      requestMeta replies = .ok (meta, nodes) →
      nodes = (validMetas replies).filter (fun kv => kv.2.checksum == meta.checksum) ∧
      (∀ ck, countCk replies ck ≤ countCk replies meta.checksum) ∧
      nodes ≠ [] ∧ ∃ id, (id, meta) ∈ nodes) := by
  obtain ⟨hchk, hmetas, hle, hval, hzero⟩ := scanFold_ok replies
  set st := replies.foldl metaScanStep ⟨fun _ => 0, [], 0, ""⟩ with hst
  have hvalid_none : validMetas replies = [] ↔ ∀ r ∈ replies, r.2 = none := by
    unfold validMetas
    rw [List.filterMap_eq_nil_iff]
    constructor
    · intro h r hr
      have h2 := h r hr
      rwa [Option.map_eq_none'] at h2
    · intro h r hr
      rw [h r hr]
      rfl
  by_cases h0 : st.chkMax = 0
  · have hreq : requestMeta replies = .error .noMetafile := by
      simp only [requestMeta]
      rw [← hst, if_pos h0]
    refine ⟨?_, ?_⟩
    · rw [hreq]
      exact ⟨fun _ => hvalid_none.mp (hzero h0), fun _ => rfl⟩
    · intro meta nodes hmn
      rw [hreq] at hmn
      simp at hmn
  · have hMpos : 1 ≤ st.chkMax := Nat.pos_of_ne_zero h0
    have hcntval : countCk replies st.chkVal = st.chkMax := hval h0
    have hlen : ((validMetas replies).filter
        (fun kv => kv.2.checksum == st.chkVal)).length = st.chkMax := by
      rw [countCk_filter_valid]
      exact hcntval
    have hnodes_ne : st.metas.filter (fun kv => kv.2.checksum == st.chkVal) ≠ [] := by
      rw [hmetas]
      apply List.ne_nil_of_length_pos
      rw [hlen]
      omega
    obtain ⟨kv, hlast⟩ : ∃ kv,
        (st.metas.filter (fun kv => kv.2.checksum == st.chkVal)).getLast? = some kv := by
      exact Option.isSome_iff_exists.mp (List.getLast?_isSome.mpr hnodes_ne)
    have hreq : requestMeta replies =
        .ok (kv.2, st.metas.filter (fun kv => kv.2.checksum == st.chkVal)) := by
      simp only [requestMeta]
      rw [← hst, if_neg h0, hlast]
    have hkv_mem : kv ∈ st.metas.filter (fun kv => kv.2.checksum == st.chkVal) :=
      List.mem_of_mem_getLast? hlast
    have hkv_ck : kv.2.checksum = st.chkVal := by
      have hmem := List.mem_filter.mp hkv_mem
      exact eq_of_beq hmem.2
    refine ⟨?_, ?_⟩
    · rw [hreq]
      constructor
      · intro hcontra
        simp at hcontra
      · intro hall
        exfalso
        have hnil : validMetas replies = [] := hvalid_none.mpr hall
        have hcv : countCk replies st.chkVal = 0 := by
          rw [← countCk_filter_valid, hnil]
          rfl
        omega
    · intro meta nodes hmn
      rw [hreq] at hmn
      have hpair := Except.ok.inj hmn
      have hm : kv.2 = meta := congrArg Prod.fst hpair
      have hn : st.metas.filter (fun kv => kv.2.checksum == st.chkVal) = nodes :=
        congrArg Prod.snd hpair
      have hckm : meta.checksum = st.chkVal := by rw [← hm]; exact hkv_ck
      refine ⟨?_, ?_, ?_, ?_⟩
      · rw [← hn, hmetas, hckm]
      · intro ck
        rw [hckm, hcntval]
        exact hle ck
      · rw [← hn]
        exact hnodes_ne
      · refine ⟨kv.1, ?_⟩
        rw [← hn, ← hm]
        exact hkv_mem

/-- A valid metadata sidecar with object checksum "a" (slice 1). -/
def mdA0 : Metadata :=
  { size := 100, data := 2, parity := 1, isCopy := false, sliceID := 1,
    checksum := "a", cksumType := "xxhash" }

/-- A valid metadata sidecar with object checksum "a" (slice 2). -/
def mdA1 : Metadata := { mdA0 with sliceID := 2 }

/-- A dissenting metadata sidecar with object checksum "z". -/
def mdZ : Metadata := { mdA0 with checksum := "z" }

/-- Three targets reply: two hold checksum "a", one dissents with "z". -/
def mrWitness : List MetaReply :=
  [("t1", some mdA0), ("t2", some mdZ), ("t3", some mdA1)]

/-- Witness for C4: on `mrWitness` the canonical checksum is "a", the
dissenter "t2" is discarded, and a run with no valid reply returns
`NoMetafile`. -/
theorem requestMeta_plurality_witness :
    requestMeta [("t1", none), ("t2", none)] = .error .noMetafile ∧
    [("t1", mdA0), ("t3", mdA1)] =
      (validMetas mrWitness).filter (fun kv => kv.2.checksum == mdA1.checksum) ∧
    (∀ ck, countCk mrWitness ck ≤ countCk mrWitness mdA1.checksum) ∧
    ([("t1", mdA0), ("t3", mdA1)] : List (String × Metadata)) ≠ [] ∧
    ∃ id, (id, mdA1) ∈ [("t1", mdA0), ("t3", mdA1)] := by
  refine ⟨(requestMeta_plurality [("t1", none), ("t2", none)]).1.mpr ?_,
    (requestMeta_plurality mrWitness).2 mdA1 [("t1", mdA0), ("t3", mdA1)] ?_⟩
  · intro r hr
    fin_cases hr <;> rfl
  · rfl

/-- C5: for an EC restore of an encoded (non-replica) object, when the
targets holding canonical metadata number strictly fewer than the
object's data-slice count, `restore` returns the insufficient-slices
error: neither `restoreReplicated` nor `restoreEncoded` — the only code
paths that persist a payload or metadata locally — is dispatched, so
no incomplete object or sidecar is persisted. -/
theorem restore_insufficient_slices (replies : List MetaReply)
    (meta : Metadata) (nodes : List (String × Metadata))
    (hreq : requestMeta replies = .ok (meta, nodes))
    (hcopy : meta.isCopy = false)
    (hlt : (nodes.length : Int) < meta.data) :
    restore true replies = .insufficientSlices ∧
    (restore true replies).persistsLocally = false := by
  have hres : restore true replies = .insufficientSlices := by
    unfold restore
    rw [hreq]
    simp [hcopy, hlt]
  exact ⟨hres, by rw [hres]; rfl⟩

/-- Witness for C5: a single surviving holder of a 2-data-slice object:
restore fails with insufficient slices and dispatches no persisting call. -/
theorem restore_insufficient_slices_witness :
    restore true [("t1", some mdA0)] = .insufficientSlices ∧
    (restore true [("t1", some mdA0)]).persistsLocally = false := by
  exact restore_insufficient_slices [("t1", some mdA0)] mdA0 [("t1", mdA0)] rfl rfl
    (by decide)

/-- The trace of `putJogger.encode` is either empty (an error return
before the metadata write completes) or starts with the local slice-0
metadata write. -/
theorem encode_trace_nil_or_meta_head (ds ps : Int) (ic : Bool) (tc : Int)
    (me : Option String) (ct : List String) (ce : Option String)
    (st : List String) (se : Option String) :
    (encode ds ps ic tc me ct ce st se).2 = [] ∨
    ∃ rest, (encode ds ps ic tc me ct ce st se).2 = .writeMetaLocal :: rest := by
  simp only [encode]
  repeat' split
  all_goals first
    | exact Or.inl rfl
    | exact Or.inr ⟨_, rfl⟩

/-- C6: in `putJogger.encode` — on both the replicated and the sliced
path — every replica or slice payload sent to another target is preceded
in the trace by the local slice-0 metadata write (`ctMeta.Write` to the
Meta content-type path happens before `createCopies` / `sendSlices`). -/
theorem encode_meta_persisted_before_send (ds ps : Int) (ic : Bool) (tc : Int)
    (me : Option String) (ct : List String) (ce : Option String)
    (st : List String) (se : Option String) (i : Nat) (e : EncEvent)
    (hget : (encode ds ps ic tc me ct ce st se).2.get? i = some e)
    (hsend : e.isSend = true) :
    ∃ j, j < i ∧
      (encode ds ps ic tc me ct ce st se).2.get? j = some .writeMetaLocal := by
  rcases encode_trace_nil_or_meta_head ds ps ic tc me ct ce st se with hnil | ⟨rest, hcons⟩
  · rw [hnil] at hget
    simp at hget
  · rw [hcons] at hget ⊢
    cases i with
    | zero =>
      rw [List.get?_cons_zero] at hget
      have he : e = .writeMetaLocal := by
        exact (Option.some.inj hget).symm
      rw [he] at hsend
      simp [EncEvent.isSend] at hsend
    | succ k =>
      exact ⟨0, Nat.succ_pos k, rfl⟩

/-- Witness for C6: a concrete sliced-path encode (2 data, 1 parity, 4
targets): the send at trace position 1 is preceded by the metadata write
at position 0. -/
theorem encode_meta_persisted_before_send_witness :
    (encode 2 1 false 4 none [] none ["t2", "t3", "t4"] none).2.get? 1 =
      some (.send "t2") ∧
    ∃ j, j < 1 ∧
      (encode 2 1 false 4 none [] none ["t2", "t3", "t4"] none).2.get? j =
        some EncEvent.writeMetaLocal := by
  exact ⟨rfl, encode_meta_persisted_before_send 2 1 false 4 none [] none
    ["t2", "t3", "t4"] none 1 (.send "t2") rfl rfl⟩

end AIStore
